import Mathlib

/-!
# Verification of the kenx template-rendering engine

This file gives a shallow embedding of the kenx framework's bespoke
template engine and settles the frozen claims about it.

The repository contains two textual variants of the engine:
* `src/src/views.ts` (`KenxViews.processKenxTemplate`, `render`,
  `renderKenx`, `clearCache`), and
* `src/packages/framework/src/auth.ts` (a second `KenxViews` class with
  the same method names).

Both variants perform repeated whole-buffer regex substitution over the
template text, in ordered passes, against a JavaScript data object.  The
embedding models:
* JavaScript values (`JSVal`), truthiness and `String(...)` coercion;
* the render context as an association list with JS-spread extension;
* each regex pass as a fuel-indexed character scanner whose semantics
  match the corresponding JavaScript regular expression (leftmost match,
  greedy `[^}]+` / `[^%]+` runs, lazy block bodies, one-character
  restart on a failed match start);
* the two `processKenxTemplate` variants (they differ in pass order and
  in the interpolation replacement policy);
* the caching `renderKenx` layer and the `render` facade with layout
  composition, over an explicit file store.

Expression evaluation (`evaluateExpression`) in the source is a
two-tier procedure: arbitrary scoped JS evaluation, falling back to a
dot-path lookup (`getNestedProperty`) on any failure, never throwing.
The embedding keeps the evaluator abstract (`Evaluator`), so theorems
can quantify over evaluation outcomes including failures, and provides
`dotEval`, the faithful model of the dot-path tier, for concrete runs.
-/

namespace Kenx

/-- JavaScript runtime values, as far as the template engine observes
them: `undefined`, `null`, booleans, (integral) numbers, strings,
arrays and plain objects. -/
inductive JSVal : Type where
  | vundefined : JSVal
  | vnull : JSVal
  | vbool : Bool → JSVal
  | vnum : Int → JSVal
  | vstr : String → JSVal
  | varr : List JSVal → JSVal
  | vobj : List (String × JSVal) → JSVal

namespace JSVal

/-- JavaScript truthiness: `undefined`, `null`, `false`, `0` and `""`
are falsy; every other value (including empty arrays and objects) is
truthy. -/
def truthy : JSVal → Bool
  | vundefined => false
  | vnull => false
  | vbool b => b
  | vnum n => n != 0
  | vstr s => s != ""
  | varr _ => true
  | vobj _ => true

mutual

/-- JavaScript `String(v)` coercion.  Arrays stringify as their
elements joined with `","`, where `null` and `undefined` elements
contribute the empty string; objects stringify as
`"[object Object]"`. -/
def toStr : JSVal → String
  | vundefined => "undefined"
  | vnull => "null"
  | vbool b => if b then "true" else "false"
  | vnum n => toString n
  | vstr s => s
  | varr xs => String.intercalate "," (elemStrs xs)
  | vobj _ => "[object Object]"

/-- Strings of array elements for `Array.prototype.join`. -/
def elemStrs : List JSVal → List String
  | [] => []
  | vundefined :: xs => "" :: elemStrs xs
  | vnull :: xs => "" :: elemStrs xs
  | x :: xs => toStr x :: elemStrs xs

end

/-- Is the value `undefined`? -/
def isUndefined : JSVal → Bool
  | vundefined => true
  | _ => false

/-- Is the value `undefined` or `null`?  (The check
`value !== undefined && value !== null` of the second variant.) -/
def isNullish : JSVal → Bool
  | vundefined => true
  | vnull => true
  | _ => false

end JSVal

/-! ### Small string utilities

List-level models of `String.prototype.trim`, `String.prototype.split`,
`String.prototype.endsWith` and numeric-index parsing, written as
structural recursions so that closed instances evaluate in the
kernel. -/

/-- Strip leading and trailing whitespace (JavaScript `.trim()`). -/
def trimChars (l : List Char) : List Char :=
  ((l.dropWhile Char.isWhitespace).reverse.dropWhile Char.isWhitespace).reverse

/-- Worker for `splitOnChar`: `cur` holds the current segment,
reversed. -/
def splitOnCharGo (sep : Char) (cur : List Char) : List Char → List String
  | [] => [cur.reverse.asString]
  | c :: rest =>
      if c == sep then cur.reverse.asString :: splitOnCharGo sep [] rest
      else splitOnCharGo sep (c :: cur) rest

/-- JavaScript `str.split(sep)` for a one-character separator. -/
def splitOnChar (sep : Char) (l : List Char) : List String :=
  splitOnCharGo sep [] l

/-- JavaScript `str.endsWith(suffix)`. -/
def strEndsWith (s suffix : String) : Bool :=
  suffix.data.reverse.isPrefixOf s.data.reverse

/-- Parse a nonempty all-digit string as a natural number (the numeric
array/string indices that `current[key]` accepts). -/
def parseNat? (l : List Char) : Option Nat :=
  if l ≠ [] ∧ l.all Char.isDigit
  then some (l.foldl (fun n c => n * 10 + (c.toNat - 48)) 0)
  else none

/-- A render context: the top-level data object, as an association
list.  Lookup takes the first matching key, so extensions prepend; the
spread `{...data, k: v}` is modelled by prepending `(k, v)`. -/
abbrev Ctx := List (String × JSVal)

/-- Property lookup on the context object (first match wins, absent
keys are `undefined`). -/
def ctxLookup (ctx : Ctx) (k : String) : JSVal :=
  match ctx.find? (fun p => p.1 == k) with
  | some p => p.2
  | none => .vundefined

/-- One step of JavaScript property access `current[key]`, for the
value shapes `JSVal` admits: object field, array numeric index, string
character index; anything else yields `undefined`. -/
def propAccess : JSVal → String → JSVal
  | .vobj fields, k => ctxLookup fields k
  | .varr xs, k =>
      match parseNat? k.data with
      | some i => match xs[i]? with | some v => v | none => .vundefined
      | none => .vundefined
  | .vstr s, k =>
      match parseNat? k.data with
      | some i => match s.data[i]? with
                  | some c => .vstr (String.mk [c])
                  | none => .vundefined
      | none => .vundefined
  | _, _ => .vundefined

/-- Model of `getNestedProperty` of both variants: split the expression on `.`
and reduce with
`(current, key) => current && current[key] !== undefined ? current[key] : undefined`. -/
def getNestedProperty (obj : JSVal) (path : String) : JSVal :=
  (splitOnChar '.' path.data).foldl
    (fun current key =>
      if current.truthy && !(propAccess current key).isUndefined
      then propAccess current key else .vundefined)
    obj

/-- Outcome of evaluating a directive expression: a value, or a raised
error (the situation the `catch` branches of `processKenxTemplate`
handle). -/
inductive EvalResult : Type where
  | ok : JSVal → EvalResult
  | err : EvalResult

/-- An expression evaluator: trimmed expression text and the current
data object in, outcome out.  `processKenxTemplate` is parametrised by
one, so theorems quantify over evaluation behaviour. -/
abbrev Evaluator := String → Ctx → EvalResult

/-- The two-tier `evaluateExpression`, restricted to its dot-path tier
(`getNestedProperty`): on plain identifier and dotted-path expressions
the scoped tier 1 either computes the same context lookup or throws
into this tier, and the combined procedure never raises. -/
def dotEval : Evaluator :=
  fun expr ctx => .ok (getNestedProperty (.vobj ctx) expr)

/-! ## The interpolation passes

`result.replace(/\{\{\s*([^}]+)\s*\}\}/g, cb)` and
`result.replace(/\{\{\{\s*([^}]+)\s*\}\}\}/g, cb)`, as character
scanners.  A match needs the opening braces, a nonempty run of
non-`}` characters (the greedy `\s*([^}]+)\s*` group, which the
callback trims), and the closing braces immediately after the run.
When a candidate start fails to match, the regex engine restarts one
character later; since a match can only start at `{` and the failed
region before the closer contains no second viable start that would
end differently, the scanner may emit the failed region verbatim and
continue after it.  The callback result is substituted without being
rescanned by the same pass.  Fuel decreases once per scanner step, so
the input length is always sufficient fuel. -/

/-- Scanner for the escaped-interpolation pass `{{ expr }}`.
`h` receives the full matched text and the trimmed expression. -/
def escGo (h : String → String → String) : Nat → List Char → List Char
  | 0, l => l
  | f + 1, l =>
    match l with
    | [] => []
    | '{' :: '{' :: rest =>
      let run := rest.takeWhile (fun c => c != '}')
      match rest.dropWhile (fun c => c != '}') with
      | '}' :: '}' :: tail =>
          if run.isEmpty then '{' :: '{' :: '}' :: '}' :: escGo h f tail
          else (h ("\x7b\x7b" ++ run.asString ++ "\x7d\x7d") (trimChars run).asString).data
                 ++ escGo h f tail
      | '}' :: tail => '{' :: '{' :: run ++ '}' :: escGo h f tail
      | _ => '{' :: '{' :: escGo h f rest
    | c :: rest => c :: escGo h f rest

/-- Scanner for the raw-interpolation pass `{{{ expr }}}`. -/
def rawGo (h : String → String → String) : Nat → List Char → List Char
  | 0, l => l
  | f + 1, l =>
    match l with
    | [] => []
    | '{' :: '{' :: '{' :: rest =>
      let run := rest.takeWhile (fun c => c != '}')
      match rest.dropWhile (fun c => c != '}') with
      | '}' :: '}' :: '}' :: tail =>
          if run.isEmpty then '{' :: '{' :: '{' :: '}' :: '}' :: '}' :: rawGo h f tail
          else (h ("\x7b\x7b\x7b" ++ run.asString ++ "\x7d\x7d\x7d") (trimChars run).asString).data
                 ++ rawGo h f tail
      | '}' :: '}' :: tail => '{' :: '{' :: '{' :: run ++ '}' :: '}' :: rawGo h f tail
      | '}' :: tail => '{' :: '{' :: '{' :: run ++ '}' :: rawGo h f tail
      | _ => '{' :: '{' :: '{' :: rawGo h f rest
    | c :: rest => c :: rawGo h f rest

/-! ## The block passes

`/\{%\s*if\s+([^%]+)\s*%\}([\s\S]*?)\{%\s*endif\s*%\}/g` and
`/\{%\s*for\s+(\w+)\s+in\s+([^%]+)\s*%\}([\s\S]*?)\{%\s*endfor\s*%\}/g`.
The head requires `{%`, optional whitespace, the keyword followed by at
least one whitespace character, a nonempty non-`%` run (whose head must
be that whitespace) and an immediate `%}`; the body is lazy, ending at
the first closing tag `{%\s*endif\s*%}` / `{%\s*endfor\s*%}`. -/

/-- The class `\w` of JavaScript regexes: ASCII letters, digits, underscore. -/
def isWordChar (c : Char) : Bool := c.isAlphanum || c == '_'

/-- Parse `\s*if\s+([^%]+)\s*%\}` directly after a `{%`.  Returns the
matched characters (after the `{%`), the trimmed condition text, and
the remaining input. -/
def parseIfHead (l : List Char) : Option (List Char × String × List Char) :=
  let ws0 := l.takeWhile Char.isWhitespace
  match l.dropWhile Char.isWhitespace with
  | 'i' :: 'f' :: r2 =>
      let mid := r2.takeWhile (fun c => c != '%')
      match r2.dropWhile (fun c => c != '%') with
      | '%' :: '}' :: tail =>
          match mid with
          | m0 :: _ :: _ =>
              if m0.isWhitespace then
                some (ws0 ++ ('i' :: 'f' :: mid) ++ ['%', '}'],
                      (trimChars mid).asString, tail)
              else none
          | _ => none
      | _ => none
  | _ => none

/-- Parse `\s*endif\s*%\}` directly after a `{%`.  Returns the matched
characters (including the leading `{%`) and the remaining input. -/
def parseEndif (l : List Char) : Option (List Char × List Char) :=
  let ws0 := l.takeWhile Char.isWhitespace
  match l.dropWhile Char.isWhitespace with
  | 'e' :: 'n' :: 'd' :: 'i' :: 'f' :: r2 =>
      let ws1 := r2.takeWhile Char.isWhitespace
      match r2.dropWhile Char.isWhitespace with
      | '%' :: '}' :: tail =>
          some ('{' :: '%' :: ws0 ++ ('e' :: 'n' :: 'd' :: 'i' :: 'f' :: ws1) ++ ['%', '}'],
                tail)
      | _ => none
  | _ => none

/-- Lazy body scan: the shortest prefix (the body) up to the first
`{%\s*endif\s*%}`.  Returns body, the matched closing tag, and the
remaining input. -/
def findEndif : List Char → Option (List Char × List Char × List Char)
  | [] => none
  | '{' :: '%' :: r2 =>
      match parseEndif r2 with
      | some (em, tail) => some ([], em, tail)
      | none =>
          match findEndif ('%' :: r2) with
          | some (body, em, tail) => some ('{' :: body, em, tail)
          | none => none
  | c :: rest =>
      match findEndif rest with
      | some (body, em, tail) => some (c :: body, em, tail)
      | none => none

/-- Parse `\s*for\s+(\w+)\s+in\s+([^%]+)\s*%\}` directly after a `{%`.
Returns the matched characters, the loop-variable name, the trimmed
sequence expression, and the remaining input. -/
def parseForHead (l : List Char) : Option (List Char × String × String × List Char) :=
  let ws0 := l.takeWhile Char.isWhitespace
  match l.dropWhile Char.isWhitespace with
  | 'f' :: 'o' :: 'r' :: r2 =>
      let ws1 := r2.takeWhile Char.isWhitespace
      let r3 := r2.dropWhile Char.isWhitespace
      let varR := r3.takeWhile isWordChar
      let r4 := r3.dropWhile isWordChar
      let ws2 := r4.takeWhile Char.isWhitespace
      if ws1.isEmpty || varR.isEmpty || ws2.isEmpty then none else
      match r4.dropWhile Char.isWhitespace with
      | 'i' :: 'n' :: r5 =>
          let mid := r5.takeWhile (fun c => c != '%')
          match r5.dropWhile (fun c => c != '%') with
          | '%' :: '}' :: tail =>
              match mid with
              | m0 :: _ :: _ =>
                  if m0.isWhitespace then
                    some (ws0 ++ ('f' :: 'o' :: 'r' :: (ws1 ++ varR ++ ws2
                            ++ ('i' :: 'n' :: mid) ++ ['%', '}'])),
                          varR.asString, (trimChars mid).asString, tail)
                  else none
              | _ => none
          | _ => none
      | _ => none
  | _ => none

/-- Parse `\s*endfor\s*%\}` directly after a `{%`. -/
def parseEndfor (l : List Char) : Option (List Char × List Char) :=
  let ws0 := l.takeWhile Char.isWhitespace
  match l.dropWhile Char.isWhitespace with
  | 'e' :: 'n' :: 'd' :: 'f' :: 'o' :: 'r' :: r2 =>
      let ws1 := r2.takeWhile Char.isWhitespace
      match r2.dropWhile Char.isWhitespace with
      | '%' :: '}' :: tail =>
          some ('{' :: '%' :: ws0
                  ++ ('e' :: 'n' :: 'd' :: 'f' :: 'o' :: 'r' :: ws1) ++ ['%', '}'],
                tail)
      | _ => none
  | _ => none

/-- Lazy body scan up to the first `{%\s*endfor\s*%}`. -/
def findEndfor : List Char → Option (List Char × List Char × List Char)
  | [] => none
  | '{' :: '%' :: r2 =>
      match parseEndfor r2 with
      | some (em, tail) => some ([], em, tail)
      | none =>
          match findEndfor ('%' :: r2) with
      | some (body, em, tail) => some ('{' :: body, em, tail)
      | none => none
  | c :: rest =>
      match findEndfor rest with
      | some (body, em, tail) => some (c :: body, em, tail)
      | none => none

/-- Scanner for the conditional pass.  `h` receives the full matched
text, the trimmed condition, and the raw body text. -/
def ifGo (h : String → String → String → String) : Nat → List Char → List Char
  | 0, l => l
  | f + 1, l =>
    match l with
    | [] => []
    | '{' :: '%' :: r2 =>
        match parseIfHead r2 with
        | some (head, cond, afterHead) =>
            match findEndif afterHead with
            | some (body, em, tail) =>
                (h ("\x7b%" ++ head.asString ++ body.asString ++ em.asString)
                   cond body.asString).data ++ ifGo h f tail
            | none => '{' :: '%' :: ifGo h f r2
        | none => '{' :: '%' :: ifGo h f r2
    | c :: rest => c :: ifGo h f rest

/-- Scanner for the iteration pass.  `h` receives the full matched
text, the loop-variable name, the trimmed sequence expression, and the
raw body text. -/
def forGo (h : String → String → String → String → String) : Nat → List Char → List Char
  | 0, l => l
  | f + 1, l =>
    match l with
    | [] => []
    | '{' :: '%' :: r2 =>
        match parseForHead r2 with
        | some (head, varName, expr, afterHead) =>
            match findEndfor afterHead with
            | some (body, em, tail) =>
                (h ("\x7b%" ++ head.asString ++ body.asString ++ em.asString)
                   varName expr body.asString).data ++ forGo h f tail
            | none => '{' :: '%' :: forGo h f r2
        | none => '{' :: '%' :: forGo h f r2
    | c :: rest => c :: forGo h f rest

/-! ## Replacement policies and the two processors -/

/-- HTML escape of one character by the fixed map of the second
variant's `{{ }}` replacement (`/[&<>"']/g`, single pass). -/
def escapeHtmlChar (c : Char) : String :=
  if c == '&' then "&amp;"
  else if c == '<' then "&lt;"
  else if c == '>' then "&gt;"
  else if c == '"' then "&quot;"
  else if c == '\'' then "&#39;"
  else String.mk [c]

/-- The single-pass HTML escape of the five characters `& < > " '`. -/
def kenxEscapeHtml (s : String) : String :=
  String.join (s.data.map escapeHtmlChar)

/-- Both interpolation callbacks of `src/src/views.ts`:
`evaluateExpression(expr, data) || ''`, coerced to a string by
`String.prototype.replace`; on a raised error the original matched
text is returned. -/
def viewsInterpRepl (r : EvalResult) (m : String) : String :=
  match r with
  | .err => m
  | .ok v => if v.truthy then v.toStr else ""

/-- The `{{{ }}}` callback of `src/packages/framework/src/auth.ts`:
`value !== undefined && value !== null ? String(value) : ''`. -/
def authRawRepl (r : EvalResult) (m : String) : String :=
  match r with
  | .err => m
  | .ok v => if v.isNullish then "" else v.toStr

/-- The `{{ }}` callback of `src/packages/framework/src/auth.ts`: the
string form as above, HTML-escaped. -/
def authEscRepl (r : EvalResult) (m : String) : String :=
  match r with
  | .err => m
  | .ok v => kenxEscapeHtml (if v.isNullish then "" else v.toStr)

/-- The conditional callback (both variants): on error return the
matched text, on a truthy condition the recursively processed body, on
a falsy condition the empty string. -/
def condRepl (r : EvalResult) (recBody : String) (m : String) : String :=
  match r with
  | .err => m
  | .ok v => if v.truthy then recBody else ""

/-- The child context of one loop iteration:
`{ ...data, [itemVar]: item, index, first: index === 0, last: index === array.length - 1 }`. -/
def loopCtx (data : Ctx) (itemVar : String) (item : JSVal) (index len : Nat) : Ctx :=
  ("last", .vbool (index == len - 1)) :: ("first", .vbool (index == 0)) ::
    ("index", .vnum index) :: (itemVar, item) :: data

/-- The iteration callback (both variants): on error the matched text;
on an array, the concatenation of the recursively processed body over
the elements, each against its `loopCtx`; on any non-array value the
empty string. -/
def forRepl (r : EvalResult) (recBody : JSVal → Nat → Nat → String) (m : String) : String :=
  match r with
  | .err => m
  | .ok (.varr xs) => String.join (xs.enum.map (fun p => recBody p.2 p.1 xs.length))
  | .ok _ => ""

/-- Model of `processKenxTemplate` of `src/src/views.ts`: four global-replace
passes over the buffer, in source order — escaped interpolation
`{{ }}`, then raw interpolation `{{{ }}}`, then conditionals, then
loops.  `fuel` bounds the recursion depth into block bodies (the
JavaScript original recurses unboundedly and can diverge on adversarial
data; every claim below uses a sufficient concrete depth). -/
def processKenxViews (ev : Evaluator) : Nat → Ctx → String → String
  | 0, _, s => s
  | f + 1, data, s =>
      let s1 := escGo (fun m e => viewsInterpRepl (ev e data) m) s.data.length s.data
      let s2 := rawGo (fun m e => viewsInterpRepl (ev e data) m) s1.length s1
      let s3 := ifGo (fun m c b => condRepl (ev c data) (processKenxViews ev f data b) m)
                  s2.length s2
      let s4 := forGo (fun m varName e b =>
                  forRepl (ev e data)
                    (fun item i n => processKenxViews ev f (loopCtx data varName item i n) b) m)
                  s3.length s3
      String.mk s4

/-- Model of `processKenxTemplate` of `src/packages/framework/src/auth.ts`: raw
interpolation `{{{ }}}` first, then escaped interpolation `{{ }}`
(HTML-escaped, `null`/`undefined` collapse to the empty string), then
conditionals, then loops. -/
def processKenxAuth (ev : Evaluator) : Nat → Ctx → String → String
  | 0, _, s => s
  | f + 1, data, s =>
      let s1 := rawGo (fun m e => authRawRepl (ev e data) m) s.data.length s.data
      let s2 := escGo (fun m e => authEscRepl (ev e data) m) s1.length s1
      let s3 := ifGo (fun m c b => condRepl (ev c data) (processKenxAuth ev f data b) m)
                  s2.length s2
      let s4 := forGo (fun m varName e b =>
                  forRepl (ev e data)
                    (fun item i n => processKenxAuth ev f (loopCtx data varName item i n) b) m)
                  s3.length s3
      String.mk s4

/-! ## Loader, cache and render facade

`renderKenx` (template cache keyed by `"kenx:" + path`), `clearCache`,
`resolveTemplatePath` / `resolveLayoutPath` (`path.join` modelled as
`"/"`-joining, extension `.kenx` appended unless already present), and
the two `render` variants.  The filesystem is an explicit immutable
store `FileStore`; `existsSync` is `(fs path).isSome` and
`readFileSync` is the stored content.  The engine is the native kenx
dialect; the `ejs`/`handlebars` branches delegate to external backends
that the spec leaves out of scope, so the facade is parametrised by the
processor `proc` for the selected kenx backend. -/

/-- The `layout` field of `RenderOptions`: absent, a layout name, or
`false` (the second variant's `layout?: string | false`). -/
inductive LayoutOpt : Type where
  | undef : LayoutOpt
  | name : String → LayoutOpt
  | disabled : LayoutOpt

/-- The view-engine configuration consumed by `KenxViews`. -/
structure ViewCfg : Type where
  viewsDir : String
  layoutsDir : Option String := none
  defaultLayout : Option String := none
  cache : Bool := false

/-- The filesystem as seen through `existsSync`/`readFileSync`. -/
abbrev FileStore := String → Option String

/-- The `templateCache` map. -/
abbrev TemplateCache := List (String × String)

/-- Lookup `templateCache.get(key)`. -/
def cacheGet (st : TemplateCache) (k : String) : Option String :=
  match st.find? (fun p => p.1 == k) with
  | some p => some p.2
  | none => none

/-- Insertion `templateCache.set(key, v)` (prepending overrides, matching
`Map.set`). -/
def cacheSet (st : TemplateCache) (k v : String) : TemplateCache :=
  (k, v) :: st

/-- Model of `clearCache()`: drop every memoized entry. -/
def clearCache (_ : TemplateCache) : TemplateCache := []

/-- The kenx engine's canonical extension. -/
def kenxExt : String := ".kenx"

/-- Model of `resolveTemplatePath`: join the views directory with the name,
appending the extension unless already present. -/
def resolveTemplatePath (cfg : ViewCfg) (tname : String) : String :=
  cfg.viewsDir ++ "/" ++ (if strEndsWith tname kenxExt then tname else tname ++ kenxExt)

/-- Model of `resolveLayoutPath`: the configured layouts directory (defaulting
to `<viewsDir>/layouts`) joined with the layout name. -/
def resolveLayoutPath (cfg : ViewCfg) (lname : String) : String :=
  (match cfg.layoutsDir with
   | some d => d
   | none => cfg.viewsDir ++ "/layouts") ++ "/"
    ++ (if strEndsWith lname kenxExt then lname else lname ++ kenxExt)

/-- Model of `renderKenx`: on a cache hit (cache flag set and key present)
process the stored source without touching the store; otherwise read
the file (`none` models the `readFileSync` throw), memoize when the
cache flag is set, and process. -/
def renderKenx (proc : Ctx → String → String) (cfg : ViewCfg) (store : FileStore)
    (st : TemplateCache) (tpath : String) (data : Ctx) :
    Option (String × TemplateCache) :=
  let key := "kenx:" ++ tpath
  match (if cfg.cache then cacheGet st key else none) with
  | some tpl => some (proc data tpl, st)
  | none =>
      match store tpath with
      | none => none
      | some tpl =>
          some (proc data tpl, if cfg.cache then cacheSet st key tpl else st)

/-- The single reported error kind relevant to the claims. -/
inductive RenderErr : Type where
  | templateNotFound : RenderErr

/-- JavaScript truthiness of the `options.layout` value. -/
def layoutTruthy : LayoutOpt → Bool
  | .name s => s != ""
  | _ => false

/-- JavaScript truthiness of `config.defaultLayout`. -/
def optTruthy : Option String → Bool
  | some s => s != ""
  | none => false

/-- The layout data `{ ...data, body: content }`. -/
def layoutCtx (data : Ctx) (content : String) : Ctx :=
  ("body", .vstr content) :: data

/-- Model of `render` of `src/src/views.ts`: existence check, backend dispatch,
then layout composition guarded by
`if (options.layout || this.config.defaultLayout)` — a `false` layout
option does not suppress a configured default layout.  A missing
layout file skips composition silently (`renderTemplate` applies no
further layout). -/
def renderViews (proc : Ctx → String → String) (cfg : ViewCfg) (store : FileStore)
    (st : TemplateCache) (tname : String) (data : Ctx) (layout : LayoutOpt) :
    Except RenderErr (String × TemplateCache) :=
  let tpath := resolveTemplatePath cfg tname
  match store tpath with
  | none => .error .templateNotFound
  | some _ =>
    match renderKenx proc cfg store st tpath data with
    | none => .error .templateNotFound
    | some (content, st1) =>
        if layoutTruthy layout || optTruthy cfg.defaultLayout then
          let lname := match layout with
            | .name s => if s != "" then s else cfg.defaultLayout.getD ""
            | _ => cfg.defaultLayout.getD ""
          let lpath := resolveLayoutPath cfg lname
          match store lpath with
          | some _ =>
              match renderKenx proc cfg store st1 lpath (layoutCtx data content) with
              | none => .error .templateNotFound
              | some (c2, st2) => .ok (c2, st2)
          | none => .ok (content, st1)
        else .ok (content, st1)

/-- Model of `render` of `src/packages/framework/src/auth.ts`: identical except
the layout guard
`if (options.layout !== false && (options.layout || this.config.defaultLayout))`,
so `layout: false` suppresses composition entirely. -/
def renderAuth (proc : Ctx → String → String) (cfg : ViewCfg) (store : FileStore)
    (st : TemplateCache) (tname : String) (data : Ctx) (layout : LayoutOpt) :
    Except RenderErr (String × TemplateCache) :=
  let tpath := resolveTemplatePath cfg tname
  match store tpath with
  | none => .error .templateNotFound
  | some _ =>
    match renderKenx proc cfg store st tpath data with
    | none => .error .templateNotFound
    | some (content, st1) =>
        if (match layout with | .disabled => false | _ => true)
            && (layoutTruthy layout || optTruthy cfg.defaultLayout) then
          let lname := match layout with
            | .name s => if s != "" then s else cfg.defaultLayout.getD ""
            | _ => cfg.defaultLayout.getD ""
          let lpath := resolveLayoutPath cfg lname
          match store lpath with
          | some _ =>
              match renderKenx proc cfg store st1 lpath (layoutCtx data content) with
              | none => .error .templateNotFound
              | some (c2, st2) => .ok (c2, st2)
          | none => .ok (content, st1)
        else .ok (content, st1)

end Kenx


namespace Kenx

/-! ## Claims

One theorem per claim.  Closed theorems evaluate the embedded code at
the decisive concrete inputs; quantified theorems carry witnesses
below. -/

/-- Array test `Array.isArray(value)`. -/
def isArr : JSVal → Bool
  | .varr _ => true
  | _ => false

/-- A constant evaluator, for witnesses: every expression evaluates to
the given outcome. -/
def constEval (r : EvalResult) : Evaluator := fun _ _ => r

/-- The data context of the specification's concrete interpolation
scenario: `{name: "<Bo>", count: "<b>3</b>"}`. -/
def scenarioCtx : Ctx := [("name", .vstr "<Bo>"), ("count", .vstr "<b>3</b>")]

/-- C1: the template `Hello {{ name }}, you have {{{ count }}} items`
rendered against `{name: "<Bo>", count: "<b>3</b>"}` must produce
exactly `Hello &lt;Bo&gt;, you have <b>3</b> items` (escaped
interpolation HTML-escapes `& < > " '`, raw interpolation inserts the
string form unchanged).  The `packages/framework/src/auth.ts`
processor does exactly that.  The `src/src/views.ts` processor runs
its `{{ }}` pass first (whose pattern also matches the first two
braces of `{{{ count }}}`) and applies no HTML escaping at all, so on
the very same input it emits `Hello <Bo>, you have } items`: the
value is dropped, a stray `}` remains, and `<Bo>` is left
unescaped. -/
theorem interpolation_scenario_two_variants :
    processKenxAuth dotEval 1 scenarioCtx "Hello {{ name }}, you have {{{ count }}} items"
        = "Hello &lt;Bo&gt;, you have <b>3</b> items"
    ∧ processKenxViews dotEval 1 scenarioCtx "Hello {{ name }}, you have {{{ count }}} items"
        = "Hello <Bo>, you have \x7d items" := by
  exact ⟨by decide, by decide⟩

/-- C3: the raw-interpolation pass must run before the
escaped-interpolation pass, so a lone `{{{ count }}}` whose expression
is defined must come out as the unescaped value with no stray braces.
True in `packages/framework/src/auth.ts` (second conjunct); violated
by `src/src/views.ts`, whose escaped pass runs first, consumes
`{{{ count }}` (evaluating the garbage expression `{ count` to
`undefined`, hence the empty string) and leaves a stray `}` (first
conjunct). -/
theorem raw_before_escaped_two_variants :
    processKenxViews dotEval 1 [("count", .vstr "<b>3</b>")] "{{{ count }}}" = "\x7d"
    ∧ processKenxAuth dotEval 1 [("count", .vstr "<b>3</b>")] "{{{ count }}}" = "<b>3</b>" := by
  exact ⟨by decide, by decide⟩

/-- Configuration with a configured default layout, for the
layout-suppression scenario. -/
def layoutCfg : ViewCfg :=
  { viewsDir := "views", defaultLayout := some "main", cache := false }

/-- File store holding the primary template `home.kenx` (source
`BODY`) and the default layout `layouts/main.kenx` (source
`[{{ body }}]`). -/
def layoutStore : FileStore := fun p =>
  if p == "views/home.kenx" then some "BODY"
  else if p == "views/layouts/main.kenx" then some "[{{ body }}]"
  else none

/-- C2: a `render` call with `layout: false` must never attempt layout
composition, even when a default layout is configured.  The
`packages/framework/src/auth.ts` variant guards composition with
`options.layout !== false && ...` and returns the bare body `BODY`
(second conjunct).  The `src/src/views.ts` variant's guard is only
`options.layout || this.config.defaultLayout`, which is truthy for a
`false` layout option whenever a default layout is configured, so it
resolves the default layout and returns the composed output `[BODY]`
(first conjunct). -/
theorem layout_false_two_variants :
    renderViews (processKenxViews dotEval 1) layoutCfg layoutStore [] "home" [] .disabled
        = .ok ("[BODY]", [])
    ∧ renderAuth (processKenxAuth dotEval 1) layoutCfg layoutStore [] "home" [] .disabled
        = .ok ("BODY", []) := by
  exact ⟨rfl, rfl⟩

end Kenx

namespace Kenx

/-- C10: in `src/src/views.ts` the interpolation callback is
`evaluateExpression(expr, data) || ''`, so every falsy evaluated value
— the number `0`, the boolean `false`, the empty string, not only
absence — renders as the empty string; the
`packages/framework/src/auth.ts` callback instead tests only
`value !== undefined && value !== null`, so it renders the string
forms `0` and `false` and collapses only `null` and `undefined` to
the empty string. -/
theorem falsy_interpolation_two_variants (ev : Evaluator) (ctx : Ctx) :
    (ev "z" ctx = .ok (.vnum 0) →
      processKenxViews ev 1 ctx "[{{ z }}]" = "[]"
      ∧ processKenxAuth ev 1 ctx "[{{ z }}]" = "[0]")
    ∧ (ev "z" ctx = .ok (.vbool false) →
      processKenxViews ev 1 ctx "[{{ z }}]" = "[]"
      ∧ processKenxAuth ev 1 ctx "[{{ z }}]" = "[false]")
    ∧ (ev "z" ctx = .ok (.vstr "") →
      processKenxViews ev 1 ctx "[{{ z }}]" = "[]"
      ∧ processKenxAuth ev 1 ctx "[{{ z }}]" = "[]")
    ∧ (ev "z" ctx = .ok .vnull →
      processKenxViews ev 1 ctx "[{{ z }}]" = "[]"
      ∧ processKenxAuth ev 1 ctx "[{{ z }}]" = "[]")
    ∧ (ev "z" ctx = .ok .vundefined →
      processKenxViews ev 1 ctx "[{{ z }}]" = "[]"
      ∧ processKenxAuth ev 1 ctx "[{{ z }}]" = "[]") := by
  have e1 : (trimChars [' ', 'z', ' ']).asString = "z" := by decide
  have e2 : kenxEscapeHtml (JSVal.toStr (.vnum 0)) = "0" := by decide
  have e3 : kenxEscapeHtml (JSVal.toStr (.vbool false)) = "false" := by decide
  have e4 : kenxEscapeHtml (JSVal.toStr (.vstr "")) = "" := by decide
  have e5 : kenxEscapeHtml "" = "" := by decide
  refine ⟨fun h => ⟨?_, ?_⟩, fun h => ⟨?_, ?_⟩, fun h => ⟨?_, ?_⟩,
    fun h => ⟨?_, ?_⟩, fun h => ⟨?_, ?_⟩⟩ <;>
    simp [processKenxViews, processKenxAuth, escGo, rawGo, ifGo, forGo, e1, e2, e3, e4, e5,
      h, viewsInterpRepl, authEscRepl, authRawRepl, JSVal.isNullish, JSVal.truthy]

/-- Witness for C10: concrete evaluators delivering each of the five
values. -/
theorem falsy_interpolation_witness :
    (processKenxViews (constEval (.ok (.vnum 0))) 1 [] "[{{ z }}]" = "[]"
      ∧ processKenxAuth (constEval (.ok (.vnum 0))) 1 [] "[{{ z }}]" = "[0]")
    ∧ (processKenxViews (constEval (.ok (.vbool false))) 1 [] "[{{ z }}]" = "[]"
      ∧ processKenxAuth (constEval (.ok (.vbool false))) 1 [] "[{{ z }}]" = "[false]")
    ∧ (processKenxViews (constEval (.ok (.vstr ""))) 1 [] "[{{ z }}]" = "[]"
      ∧ processKenxAuth (constEval (.ok (.vstr ""))) 1 [] "[{{ z }}]" = "[]")
    ∧ (processKenxViews (constEval (.ok .vnull)) 1 [] "[{{ z }}]" = "[]"
      ∧ processKenxAuth (constEval (.ok .vnull)) 1 [] "[{{ z }}]" = "[]")
    ∧ (processKenxViews (constEval (.ok .vundefined)) 1 [] "[{{ z }}]" = "[]"
      ∧ processKenxAuth (constEval (.ok .vundefined)) 1 [] "[{{ z }}]" = "[]") := by
  refine ⟨(falsy_interpolation_two_variants (constEval (.ok (.vnum 0))) []).1 rfl,
    (falsy_interpolation_two_variants (constEval (.ok (.vbool false))) []).2.1 rfl,
    (falsy_interpolation_two_variants (constEval (.ok (.vstr ""))) []).2.2.1 rfl,
    (falsy_interpolation_two_variants (constEval (.ok .vnull)) []).2.2.2.1 rfl,
    (falsy_interpolation_two_variants (constEval (.ok .vundefined)) []).2.2.2.2 rfl⟩

end Kenx

namespace Kenx

/-- Witness evaluator for the error-recovery claim: `p` raises, every
other expression evaluates to the string `OK`. -/
def errEvalPQ : Evaluator := fun e _ => if e == "p" then .err else .ok (.vstr "OK")

/-- C4: when evaluating one directive's expression raises an error,
the processor leaves that directive's original source text unmodified
and continues processing the remaining directives — in both variants
the per-directive `catch` returns the matched text, so a single
failure never aborts the render (the processors are total functions of
the embedding).  The first two conjuncts run a buffer whose first
directive raises and whose second succeeds; the last conjunct states
the error-path contract of every directive kind's callback. -/
theorem directive_error_recovery (ev : Evaluator) (ctx : Ctx)
    (hp : ev "p" ctx = .err) (hq : ev "q" ctx = .ok (.vstr "OK")) :
    processKenxAuth ev 1 ctx "A {{ p }} B {{ q }} C" = "A {{ p }} B OK C"
    ∧ processKenxViews ev 1 ctx "A {{ p }} B {{ q }} C" = "A {{ p }} B OK C"
    ∧ (∀ (m b : String) (r : JSVal → Nat → Nat → String),
        viewsInterpRepl .err m = m ∧ authRawRepl .err m = m ∧ authEscRepl .err m = m
        ∧ condRepl .err b m = m ∧ forRepl .err r m = m) := by
  have e1 : (trimChars [' ', 'p', ' ']).asString = "p" := by decide
  have e2 : (trimChars [' ', 'q', ' ']).asString = "q" := by decide
  have a1 : [' ', 'p', ' '].asString = " p " := by decide
  have a2 : [' ', 'q', ' '].asString = " q " := by decide
  have e3 : kenxEscapeHtml "OK" = "OK" := by decide
  refine ⟨?_, ?_, fun m b r => ⟨rfl, rfl, rfl, rfl, rfl⟩⟩ <;>
    simp [processKenxAuth, processKenxViews, escGo, rawGo, ifGo, forGo, e1, e2, a1, a2, e3,
      hp, hq, viewsInterpRepl, authEscRepl, authRawRepl, JSVal.isNullish, JSVal.truthy,
      JSVal.toStr]

/-- Witness for C4 at the concrete evaluator `errEvalPQ` and the empty
context. -/
theorem directive_error_recovery_witness :
    processKenxAuth errEvalPQ 1 [] "A {{ p }} B {{ q }} C" = "A {{ p }} B OK C"
    ∧ processKenxViews errEvalPQ 1 [] "A {{ p }} B {{ q }} C" = "A {{ p }} B OK C" := by
  have h := directive_error_recovery errEvalPQ [] rfl rfl
  exact ⟨h.1, h.2.1⟩

set_option maxRecDepth 16384 in
set_option maxHeartbeats 1000000 in
/-- C5: an iteration block over an array `[a, b, c]` produces exactly
three expansions of the body, concatenated in sequence order, each
processed against the child context `loopCtx` that extends the parent
with the loop variable and the synthetic `index`/`first`/`last`
bindings; in the second expansion `index = 1`, `first = false`,
`last = false` and `x` is bound to `b`.  A non-array value makes the
whole block contribute the empty string, with no error. -/
theorem iteration_block_semantics (ev : Evaluator) (ctx : Ctx) (a b c : JSVal)
    (he : ev "items" ctx = .ok (.varr [a, b, c])) :
    processKenxAuth ev 2 ctx "{% for x in items %}B!{% endfor %}"
        = processKenxAuth ev 1 (loopCtx ctx "x" a 0 3) "B!"
          ++ processKenxAuth ev 1 (loopCtx ctx "x" b 1 3) "B!"
          ++ processKenxAuth ev 1 (loopCtx ctx "x" c 2 3) "B!"
    ∧ processKenxAuth ev 2 ctx "{% for x in items %}B!{% endfor %}" = "B!B!B!"
    ∧ ctxLookup (loopCtx ctx "x" b 1 3) "x" = b
    ∧ ctxLookup (loopCtx ctx "x" b 1 3) "index" = .vnum 1
    ∧ ctxLookup (loopCtx ctx "x" b 1 3) "first" = .vbool false
    ∧ ctxLookup (loopCtx ctx "x" b 1 3) "last" = .vbool false
    ∧ (∀ (ev' : Evaluator) (ctx' : Ctx) (v : JSVal),
        ev' "items" ctx' = .ok v → isArr v = false →
        processKenxAuth ev' 2 ctx' "{% for x in items %}B!{% endfor %}" = "") := by
  have h1 : parseIfHead [' ', 'f', 'o', 'r', ' ', 'x', ' ', 'i', 'n', ' ', 'i', 't', 'e', 'm', 's', ' ', '%', '}', 'B', '!', '{', '%', ' ', 'e', 'n', 'd', 'f', 'o', 'r', ' ', '%', '}'] = none := by decide
  have h1b : parseIfHead [' ', 'e', 'n', 'd', 'f', 'o', 'r', ' ', '%', '}'] = none := by decide
  have h2 : parseForHead [' ', 'f', 'o', 'r', ' ', 'x', ' ', 'i', 'n', ' ', 'i', 't', 'e', 'm', 's', ' ', '%', '}', 'B', '!', '{', '%', ' ', 'e', 'n', 'd', 'f', 'o', 'r', ' ', '%', '}']
      = some ([' ', 'f', 'o', 'r', ' ', 'x', ' ', 'i', 'n', ' ', 'i', 't', 'e', 'm', 's', ' ', '%', '}'], "x", "items", ['B', '!', '{', '%', ' ', 'e', 'n', 'd', 'f', 'o', 'r', ' ', '%', '}']) := by decide
  have h3 : findEndfor ['B', '!', '{', '%', ' ', 'e', 'n', 'd', 'f', 'o', 'r', ' ', '%', '}']
      = some (['B', '!'], ['{', '%', ' ', 'e', 'n', 'd', 'f', 'o', 'r', ' ', '%', '}'], []) := by decide
  have ab : ['B', '!'].asString = "B!" := by decide
  refine ⟨?_, ?_, ?_, ?_, ?_, ?_, ?_⟩
  · simp [processKenxAuth, escGo, rawGo, ifGo, forGo, h1, h1b, h2, h3, ab, he, forRepl,
      List.enum, List.enumFrom, String.join, String.empty_append]
  · simp [processKenxAuth, escGo, rawGo, ifGo, forGo, h1, h1b, h2, h3, ab, he, forRepl,
      List.enum, List.enumFrom, String.join, String.empty_append, loopCtx]
  · simp [ctxLookup, loopCtx, List.find?]
  · simp [ctxLookup, loopCtx, List.find?]
  · simp [ctxLookup, loopCtx, List.find?]
  · simp [ctxLookup, loopCtx, List.find?]
  · intro ev' ctx' v h hv
    cases v <;> simp [isArr] at hv ⊢ <;>
      simp [processKenxAuth, escGo, rawGo, ifGo, forGo, h1, h1b, h2, h3, ab, h, forRepl]

/-- Witness for C5: the dot-path evaluator over a context binding
`items` to a three-element array, and over one binding it to a
scalar. -/
theorem iteration_block_semantics_witness :
    processKenxAuth dotEval 2 [("items", .varr [.vstr "A", .vstr "B", .vstr "C"])]
        "{% for x in items %}B!{% endfor %}" = "B!B!B!"
    ∧ processKenxAuth dotEval 2 [("items", .vstr "three")]
        "{% for x in items %}B!{% endfor %}" = "" := by
  have h := iteration_block_semantics dotEval
    [("items", .varr [.vstr "A", .vstr "B", .vstr "C"])]
    (.vstr "A") (.vstr "B") (.vstr "C") rfl
  exact ⟨h.2.1, h.2.2.2.2.2.2 dotEval [("items", .vstr "three")] (.vstr "three") rfl rfl⟩

end Kenx

namespace Kenx

set_option maxRecDepth 16384 in
set_option maxHeartbeats 1000000 in
/-- C6: a conditional block contributes the empty string when its
expression evaluates falsy, and when it evaluates truthy it
contributes its body with the whole Directive Processor recursively
re-applied against the unchanged context — exhibited by a nested
iteration directive in the body, which expands in the truthy case
(`<!>`) and never runs in the falsy case. -/
theorem conditional_block_semantics (ev : Evaluator) (ctx : Ctx) (v a : JSVal)
    (hc : ev "c" ctx = .ok v) (he : ev "e" ctx = .ok (.varr [a])) :
    processKenxAuth ev 2 ctx "{% if c %}<{% for x in e %}!{% endfor %}>{% endif %}"
        = (if v.truthy = true
           then processKenxAuth ev 1 ctx "<{% for x in e %}!{% endfor %}>"
           else "")
    ∧ processKenxAuth ev 1 ctx "<{% for x in e %}!{% endfor %}>" = "<!>"
    ∧ (v.truthy = true →
        processKenxAuth ev 2 ctx "{% if c %}<{% for x in e %}!{% endfor %}>{% endif %}"
          = "<!>")
    ∧ (v.truthy = false →
        processKenxAuth ev 2 ctx "{% if c %}<{% for x in e %}!{% endfor %}>{% endif %}"
          = "") := by
  have pI : parseIfHead [' ', 'i', 'f', ' ', 'c', ' ', '%', '}', '<', '{', '%', ' ', 'f', 'o', 'r', ' ', 'x', ' ', 'i', 'n', ' ', 'e', ' ', '%', '}', '!', '{', '%', ' ', 'e', 'n', 'd', 'f', 'o', 'r', ' ', '%', '}', '>', '{', '%', ' ', 'e', 'n', 'd', 'i', 'f', ' ', '%', '}']
      = some ([' ', 'i', 'f', ' ', 'c', ' ', '%', '}'], "c",
          ['<', '{', '%', ' ', 'f', 'o', 'r', ' ', 'x', ' ', 'i', 'n', ' ', 'e', ' ', '%', '}', '!', '{', '%', ' ', 'e', 'n', 'd', 'f', 'o', 'r', ' ', '%', '}', '>', '{', '%', ' ', 'e', 'n', 'd', 'i', 'f', ' ', '%', '}']) := by decide
  have fE : findEndif ['<', '{', '%', ' ', 'f', 'o', 'r', ' ', 'x', ' ', 'i', 'n', ' ', 'e', ' ', '%', '}', '!', '{', '%', ' ', 'e', 'n', 'd', 'f', 'o', 'r', ' ', '%', '}', '>', '{', '%', ' ', 'e', 'n', 'd', 'i', 'f', ' ', '%', '}']
      = some (['<', '{', '%', ' ', 'f', 'o', 'r', ' ', 'x', ' ', 'i', 'n', ' ', 'e', ' ', '%', '}', '!', '{', '%', ' ', 'e', 'n', 'd', 'f', 'o', 'r', ' ', '%', '}', '>'],
          ['{', '%', ' ', 'e', 'n', 'd', 'i', 'f', ' ', '%', '}'], []) := by decide
  have ab : ['<', '{', '%', ' ', 'f', 'o', 'r', ' ', 'x', ' ', 'i', 'n', ' ', 'e', ' ', '%', '}', '!', '{', '%', ' ', 'e', 'n', 'd', 'f', 'o', 'r', ' ', '%', '}', '>'].asString
      = "<{% for x in e %}!{% endfor %}>" := by decide
  have pI2 : parseIfHead [' ', 'f', 'o', 'r', ' ', 'x', ' ', 'i', 'n', ' ', 'e', ' ', '%', '}', '!', '{', '%', ' ', 'e', 'n', 'd', 'f', 'o', 'r', ' ', '%', '}', '>'] = none := by decide
  have pI3 : parseIfHead [' ', 'e', 'n', 'd', 'f', 'o', 'r', ' ', '%', '}', '>'] = none := by decide
  have pF : parseForHead [' ', 'f', 'o', 'r', ' ', 'x', ' ', 'i', 'n', ' ', 'e', ' ', '%', '}', '!', '{', '%', ' ', 'e', 'n', 'd', 'f', 'o', 'r', ' ', '%', '}', '>']
      = some ([' ', 'f', 'o', 'r', ' ', 'x', ' ', 'i', 'n', ' ', 'e', ' ', '%', '}'], "x", "e",
          ['!', '{', '%', ' ', 'e', 'n', 'd', 'f', 'o', 'r', ' ', '%', '}', '>']) := by decide
  have fF : findEndfor ['!', '{', '%', ' ', 'e', 'n', 'd', 'f', 'o', 'r', ' ', '%', '}', '>']
      = some (['!'], ['{', '%', ' ', 'e', 'n', 'd', 'f', 'o', 'r', ' ', '%', '}'], ['>']) := by decide
  have a4 : ['!'].asString = "!" := by decide
  simp only [] at pI fE ab pI2 pI3 pF fF
  have hB : processKenxAuth ev 1 ctx "<{% for x in e %}!{% endfor %}>" = "<!>" := by
    simp [processKenxAuth, escGo, rawGo, ifGo, forGo, pI2, pI3, pF, fF, a4, he, forRepl,
      List.enum, List.enumFrom, String.join, String.empty_append]
  have hMain : processKenxAuth ev 2 ctx "{% if c %}<{% for x in e %}!{% endfor %}>{% endif %}"
      = (if v.truthy = true
         then processKenxAuth ev 1 ctx "<{% for x in e %}!{% endfor %}>"
         else "") := by
    cases hv : v.truthy
    · simp [processKenxAuth, escGo, rawGo, ifGo, forGo, pI, fE, ab, hc, hv, condRepl]
    · simp [processKenxAuth, escGo, rawGo, ifGo, forGo, pI, fE, ab, pI2, pI3, pF, fF, a4,
        hc, hv, he, condRepl, forRepl, List.enum, List.enumFrom, String.join,
        String.empty_append]
  refine ⟨hMain, hB, fun hv => ?_, fun hv => ?_⟩
  · rw [hMain, if_pos hv, hB]
  · rw [hMain, hv]
    simp

/-- Witness for C6: the dot-path evaluator, once with a truthy and
once with a falsy condition. -/
theorem conditional_block_semantics_witness :
    processKenxAuth dotEval 2 [("c", .vbool true), ("e", .varr [.vnum 1])]
        "{% if c %}<{% for x in e %}!{% endfor %}>{% endif %}" = "<!>"
    ∧ processKenxAuth dotEval 2 [("c", .vbool false), ("e", .varr [.vnum 1])]
        "{% if c %}<{% for x in e %}!{% endfor %}>{% endif %}" = "" := by
  exact ⟨(conditional_block_semantics dotEval [("c", .vbool true), ("e", .varr [.vnum 1])]
      (.vbool true) (.vnum 1) rfl rfl).2.2.1 rfl,
    (conditional_block_semantics dotEval [("c", .vbool false), ("e", .varr [.vnum 1])]
      (.vbool false) (.vnum 1) rfl rfl).2.2.2 rfl⟩

end Kenx

namespace Kenx

/-- C7: with caching enabled, the first `renderKenx` of a path reads
and memoizes the source; a second render of the same key returns
output computed from the stored source against an arbitrary (even
changed or deleted) file store, without reading it; after
`clearCache`, the next render re-reads the store, so changed content
becomes observable. -/
theorem template_cache_semantics (proc : Ctx → String → String) (cfg : ViewCfg)
    (hc : cfg.cache = true) (store1 store2 : FileStore) (tpath src src2 : String)
    (data data2 : Ctx) (h1 : store1 tpath = some src) (h2 : store2 tpath = some src2) :
    renderKenx proc cfg store1 [] tpath data
        = some (proc data src, [("kenx:" ++ tpath, src)])
    ∧ renderKenx proc cfg store2 [("kenx:" ++ tpath, src)] tpath data2
        = some (proc data2 src, [("kenx:" ++ tpath, src)])
    ∧ renderKenx proc cfg store2 (clearCache [("kenx:" ++ tpath, src)]) tpath data2
        = some (proc data2 src2, [("kenx:" ++ tpath, src2)]) := by
  refine ⟨?_, ?_, ?_⟩ <;>
    simp [renderKenx, cacheGet, cacheSet, clearCache, hc, h1, h2, List.find?]

/-- Identity backend for witnesses: process a template to itself. -/
def idProc : Ctx → String → String := fun _ s => s

/-- First witness store: `t.kenx` holds `ONE`. -/
def storeOne : FileStore := fun p => if p == "t.kenx" then some "ONE" else none

/-- Second witness store: the file changed to `TWO`. -/
def storeTwo : FileStore := fun p => if p == "t.kenx" then some "TWO" else none

/-- Witness for C7: render, re-render against the changed store, clear
and render again. -/
theorem template_cache_semantics_witness :
    renderKenx idProc { viewsDir := "v", cache := true } storeOne [] "t.kenx" []
        = some (idProc [] "ONE", [("kenx:" ++ "t.kenx", "ONE")])
    ∧ renderKenx idProc { viewsDir := "v", cache := true } storeTwo
        [("kenx:" ++ "t.kenx", "ONE")] "t.kenx" []
        = some (idProc [] "ONE", [("kenx:" ++ "t.kenx", "ONE")])
    ∧ renderKenx idProc { viewsDir := "v", cache := true } storeTwo
        (clearCache [("kenx:" ++ "t.kenx", "ONE")]) "t.kenx" []
        = some (idProc [] "TWO", [("kenx:" ++ "t.kenx", "TWO")]) := by
  exact template_cache_semantics idProc { viewsDir := "v", cache := true } rfl
    storeOne storeTwo "t.kenx" "ONE" "TWO" [] [] rfl rfl

/-- C8: `render` fails with the template-not-found error when the
resolved primary template path is absent from the store (existence is
checked before any read); but when a layout is requested and the
resolved layout path is absent, composition is silently skipped and
the rendered body is returned unchanged with no error. -/
theorem render_notfound_and_layout_softskip :
    (∀ (proc : Ctx → String → String) (cfg : ViewCfg) (store : FileStore)
        (st : TemplateCache) (tname : String) (data : Ctx) (layout : LayoutOpt),
        store (resolveTemplatePath cfg tname) = none →
        renderViews proc cfg store st tname data layout = .error .templateNotFound)
    ∧ (∀ (proc : Ctx → String → String) (cfg : ViewCfg) (store : FileStore)
        (st st1 : TemplateCache) (tname : String) (data : Ctx) (L tsrc content : String),
        L ≠ "" →
        store (resolveTemplatePath cfg tname) = some tsrc →
        store (resolveLayoutPath cfg L) = none →
        renderKenx proc cfg store st (resolveTemplatePath cfg tname) data
          = some (content, st1) →
        renderViews proc cfg store st tname data (.name L) = .ok (content, st1)) := by
  constructor
  · intro proc cfg store st tname data layout h
    simp [renderViews, h]
  · intro proc cfg store st st1 tname data L tsrc content hL hts hlp hr
    simp [renderViews, hts, hlp, hr, layoutTruthy, hL]

/-- Witness store for C8's soft-skip part: only the primary template
exists. -/
def storeBodyOnly : FileStore :=
  fun p => if p == "views/home.kenx" then some "BODY" else none

/-- Witness for C8: a missing template aborts with the error; a
missing requested layout leaves the body unchanged. -/
theorem render_notfound_and_layout_softskip_witness :
    renderViews idProc { viewsDir := "views", cache := false } (fun _ => none) []
        "missing" [] .undef = .error .templateNotFound
    ∧ renderViews idProc { viewsDir := "views", cache := false } storeBodyOnly []
        "home" [] (.name "side") = .ok ("BODY", []) := by
  exact ⟨render_notfound_and_layout_softskip.1 idProc
      { viewsDir := "views", cache := false } (fun _ => none) [] "missing" [] .undef rfl,
    render_notfound_and_layout_softskip.2 idProc
      { viewsDir := "views", cache := false } storeBodyOnly [] [] "home" []
      "side" "BODY" "BODY" (by decide) rfl rfl rfl⟩

/-- C9: the child context of a loop iteration (`loopCtx`) and of a
layout composition (`layoutCtx`) is a shallow extension of the parent:
the child bindings (loop variable, `index`, `first`, `last`,
respectively `body`) shadow same-named parent bindings, every other
parent binding stays visible with its original value, and the parent
list is embedded unchanged (the embedding is pure, so the
caller-supplied context itself is never mutated). -/
theorem child_context_shallow_extension (data : Ctx) (varName : String) (item : JSVal)
    (i n : Nat) (content : String) (k : String)
    (h1 : varName ≠ "index") (h2 : varName ≠ "first") (h3 : varName ≠ "last") :
    ctxLookup (loopCtx data varName item i n) varName = item
    ∧ ctxLookup (loopCtx data varName item i n) "index" = .vnum i
    ∧ ctxLookup (loopCtx data varName item i n) "first" = .vbool (i == 0)
    ∧ ctxLookup (loopCtx data varName item i n) "last" = .vbool (i == n - 1)
    ∧ (k ≠ varName → k ≠ "index" → k ≠ "first" → k ≠ "last" →
        ctxLookup (loopCtx data varName item i n) k = ctxLookup data k)
    ∧ (loopCtx data varName item i n).drop 4 = data
    ∧ ctxLookup (layoutCtx data content) "body" = .vstr content
    ∧ (k ≠ "body" → ctxLookup (layoutCtx data content) k = ctxLookup data k)
    ∧ (layoutCtx data content).drop 1 = data := by
  have b1 : ("index" == varName) = false := by simp [Ne.symm h1]
  have b2 : ("first" == varName) = false := by simp [Ne.symm h2]
  have b3 : ("last" == varName) = false := by simp [Ne.symm h3]
  refine ⟨?_, ?_, ?_, ?_, fun k1 k2 k3 k4 => ?_, rfl, ?_, fun k5 => ?_, rfl⟩
  · simp [ctxLookup, loopCtx, List.find?, b1, b2, b3]
  · simp [ctxLookup, loopCtx, List.find?]
  · simp [ctxLookup, loopCtx, List.find?]
  · simp [ctxLookup, loopCtx, List.find?]
  · have c1 : (varName == k) = false := by simp [Ne.symm k1]
    have c2 : ("index" == k) = false := by simp [Ne.symm k2]
    have c3 : ("first" == k) = false := by simp [Ne.symm k3]
    have c4 : ("last" == k) = false := by simp [Ne.symm k4]
    simp [ctxLookup, loopCtx, List.find?, c1, c2, c3, c4]
  · simp [ctxLookup, layoutCtx, List.find?]
  · have c5 : ("body" == k) = false := by simp [Ne.symm k5]
    simp [ctxLookup, layoutCtx, List.find?, c5]

/-- Witness for C9 at a concrete parent context, loop variable `x`,
item `7`, index `1` of `3`, and an untouched parent key `k0`. -/
theorem child_context_shallow_extension_witness :
    ctxLookup (loopCtx [("x", .vstr "p"), ("k0", .vstr "v0")] "x" (.vnum 7) 1 3) "x"
        = .vnum 7
    ∧ ctxLookup (loopCtx [("x", .vstr "p"), ("k0", .vstr "v0")] "x" (.vnum 7) 1 3) "index"
        = .vnum 1
    ∧ ctxLookup (loopCtx [("x", .vstr "p"), ("k0", .vstr "v0")] "x" (.vnum 7) 1 3) "k0"
        = ctxLookup [("x", .vstr "p"), ("k0", .vstr "v0")] "k0"
    ∧ ctxLookup (layoutCtx [("x", .vstr "p"), ("k0", .vstr "v0")] "B") "body"
        = .vstr "B" := by
  have h := child_context_shallow_extension [("x", .vstr "p"), ("k0", .vstr "v0")] "x"
    (.vnum 7) 1 3 "B" "k0" (by decide) (by decide) (by decide)
  exact ⟨h.1, h.2.1, h.2.2.2.2.1 (by decide) (by decide) (by decide) (by decide),
    h.2.2.2.2.2.2.1⟩

end Kenx
